import Mathlib

/-!
# Verification of the Tableau KPI card pipeline

A shallow embedding, in Lean 4, of the period/range computation engine, the
change-detection fingerprint, the fetch/aggregation pipeline and the tooltip
formatting logic of the `tableau_kpi_card` dashboard widget (authoritative
source: `src/unnamed/part_002`).  Pure functions of the JavaScript source are
translated into executable Lean definitions; the stateful fetch code is
modelled by explicit operation traces over the worksheet filter state; the
JavaScript `Date` UTC-field arithmetic is modelled with exact civil-calendar
arithmetic over `Int` (the proleptic Gregorian calendar, via the standard
days-from-civil / civil-from-days conversion), including ECMAScript `MakeDay`
normalization that rolls an out-of-range day-of-month forward into the
following month.
-/

/-! ## JavaScript `Date` model (UTC fields, ECMAScript `MakeDay` semantics) -/

/-- Number of days since the epoch 1970-01-01 of the civil date `(y, m, d)`
with `m ∈ [1,12]`.  The formula is linear in `d`, exactly as ECMAScript's
`MakeDay`, so out-of-range `d` denotes the corresponding offset from the
first of the month. -/
def daysFromCivil (y m d : Int) : Int :=
  let y' := if m ≤ 2 then y - 1 else y
  let era := Int.fdiv y' 400
  let yoe := y' - era * 400
  let mp : Int := if m > 2 then m - 3 else m + 9
  let doy := Int.fdiv (153 * mp + 2) 5 + d - 1
  let doe := yoe * 365 + Int.fdiv yoe 4 - Int.fdiv yoe 100 + doy
  era * 146097 + doe - 719468

/-- Inverse of `daysFromCivil`: the normalized civil date `(y, m, d)`,
`m ∈ [1,12]`, `d ∈ [1,31]`, of a day count since 1970-01-01. -/
def civilFromDays (z0 : Int) : Int × Int × Int :=
  let z := z0 + 719468
  let era := Int.fdiv z 146097
  let doe := z - era * 146097
  let yoe := Int.fdiv (doe - Int.fdiv doe 1460 + Int.fdiv doe 36524 - Int.fdiv doe 146096) 365
  let y := yoe + era * 400
  let doy := doe - (365 * yoe + Int.fdiv yoe 4 - Int.fdiv yoe 100)
  let mp := Int.fdiv (5 * doy + 2) 153
  let d := doy - Int.fdiv (153 * mp + 2) 5 + 1
  let m := if mp < 10 then mp + 3 else mp - 9
  (if m ≤ 2 then y + 1 else y, m, d)

/-- ECMAScript `MakeDay(y, m, d)`: `m` is a 0-based month that may lie outside
`[0,11]` (it carries into the year), and `d` may lie outside the month (it
carries into adjacent months). -/
def makeDay (y m d : Int) : Int :=
  daysFromCivil (y + Int.fdiv m 12) (Int.emod m 12 + 1) d

/-- A JavaScript `Date`, reduced to its normalized UTC fields.  `month` is
0-based (0 = January) as returned by `getUTCMonth`. -/
structure JSDate where
  year : Int
  month : Int
  day : Int
  hour : Int
  minute : Int
  second : Int
  millisecond : Int
deriving DecidableEq, Repr

/-- `Date.UTC(y, m, d, hh, mi, ss, ms)` restricted to in-range time fields
(every call site modelled here passes literal in-range times): the date part
is normalized through `MakeDay`. -/
def dateUTC (y m d hh mi ss ms : Int) : JSDate :=
  let c := civilFromDays (makeDay y m d)
  ⟨c.1, c.2.1 - 1, c.2.2, hh, mi, ss, ms⟩

/-- `d.setUTCMonth(m)`: re-normalizes the date with the new 0-based month,
keeping the day-of-month and time fields (ECMAScript semantics: an
overflowing day-of-month rolls forward into the following month). -/
def setUTCMonth (dt : JSDate) (m : Int) : JSDate :=
  dateUTC dt.year m dt.day dt.hour dt.minute dt.second dt.millisecond

/-- `d.setUTCFullYear(y)`: re-normalizes the date with the new year, keeping
month, day-of-month and time fields. -/
def setUTCFullYear (dt : JSDate) (y : Int) : JSDate :=
  dateUTC y dt.month dt.day dt.hour dt.minute dt.second dt.millisecond

/-- A `{start, end}` date window (`stop` models the source's `end`, which is a
reserved word in Lean). -/
structure DateRange where
  start : JSDate
  stop : JSDate
deriving DecidableEq, Repr

/-- The non-rolling period kinds accepted by `getRange` (the `rolling` branch
reads module-level UI state and is outside the scope of the claims). -/
inductive PeriodKind
  | mtd
  | qtd
  | ytd
deriving DecidableEq, Repr

/-- `getRange(period, anchorDate)` from `src/unnamed/part_002` lines 91-105:
`end` is the anchor's calendar day at 23:59:59.999 UTC, `start` is the first
day of the anchor's month / quarter / year. -/
def getRange (period : PeriodKind) (anchor : JSDate) : DateRange :=
  let stop := dateUTC anchor.year anchor.month anchor.day 23 59 59 999
  match period with
  | .mtd => ⟨dateUTC anchor.year anchor.month 1 0 0 0 0, stop⟩
  | .qtd => ⟨dateUTC anchor.year (Int.fdiv anchor.month 3 * 3) 1 0 0 0 0, stop⟩
  | .ytd => ⟨dateUTC anchor.year 0 1 0 0 0 0, stop⟩

/-- `getPrevMonthRange(range)` (lines 144-150): `setUTCMonth(getUTCMonth()-1)`
on both bounds independently. -/
def getPrevMonthRange (r : DateRange) : DateRange :=
  ⟨setUTCMonth r.start (r.start.month - 1), setUTCMonth r.stop (r.stop.month - 1)⟩

/-- `getPrevYearRange(range)` (lines 152-158): `setUTCFullYear(getUTCFullYear()-1)`
on both bounds independently. -/
def getPrevYearRange (r : DateRange) : DateRange :=
  ⟨setUTCFullYear r.start (r.start.year - 1), setUTCFullYear r.stop (r.stop.year - 1)⟩

/-! ## First-appearance grouping (shared by the aggregation fetcher) -/

/-- Distinct elements of `l` in order of first appearance, skipping anything
already in `seen`. -/
def firstKeysAux {κ : Type} [DecidableEq κ] (seen : List κ) : List κ → List κ
  | [] => []
  | k :: t => if k ∈ seen then firstKeysAux seen t else k :: firstKeysAux (k :: seen) t

/-- Distinct elements of `l` in order of first appearance. -/
def firstKeys {κ : Type} [DecidableEq κ] (l : List κ) : List κ :=
  firstKeysAux [] l

/-- One step of the source's `Map`-based grouping loop: if the row's key is
already present the bucket is updated in place, otherwise a fresh bucket
(initialized from `base` and the row) is appended, preserving insertion
order. -/
def groupUpd {κ ρ μ : Type} [DecidableEq κ] (keyf : ρ → κ) (addf : ρ → μ → μ) (base : μ)
    (acc : List (κ × μ)) (r : ρ) : List (κ × μ) :=
  if keyf r ∈ acc.map Prod.fst then
    acc.map (fun p => if p.1 = keyf r then (p.1, addf r p.2) else p)
  else
    acc ++ [(keyf r, addf r base)]

/-- The source's `Map`-based grouping of a row list (insertion-ordered
association list, as a JavaScript `Map` preserves insertion order). -/
def groupByKey {κ ρ μ : Type} [DecidableEq κ] (keyf : ρ → κ) (addf : ρ → μ → μ) (base : μ)
    (rows : List ρ) : List (κ × μ) :=
  rows.foldl (groupUpd keyf addf base) []

theorem firstKeysAux_congr {κ : Type} [DecidableEq κ] {s₁ s₂ : List κ}
    (h : ∀ x, x ∈ s₁ ↔ x ∈ s₂) : ∀ l : List κ, firstKeysAux s₁ l = firstKeysAux s₂ l
  | [] => rfl
  | k :: t => by
    simp only [firstKeysAux]
    by_cases hk : k ∈ s₁
    · rw [if_pos hk, if_pos ((h k).mp hk), firstKeysAux_congr h t]
    · rw [if_neg hk, if_neg (fun hc => hk ((h k).mpr hc))]
      have h' : ∀ x, x ∈ k :: s₁ ↔ x ∈ k :: s₂ := by
        intro x; simp only [List.mem_cons]; rw [h x]
      rw [firstKeysAux_congr h' t]

theorem map_fst_groupUpd {κ ρ μ : Type} [DecidableEq κ] (keyf : ρ → κ) (addf : ρ → μ → μ)
    (base : μ) (acc : List (κ × μ)) (r : ρ) :
    (groupUpd keyf addf base acc r).map Prod.fst =
      if keyf r ∈ acc.map Prod.fst then acc.map Prod.fst else acc.map Prod.fst ++ [keyf r] := by
  unfold groupUpd
  by_cases h : keyf r ∈ acc.map Prod.fst
  · rw [if_pos h, if_pos h, List.map_map]
    refine List.map_congr_left ?_
    intro p _
    by_cases hp : p.1 = keyf r <;> simp [hp]
  · rw [if_neg h, if_neg h]
    simp

theorem map_fst_foldl_groupUpd {κ ρ μ : Type} [DecidableEq κ] (keyf : ρ → κ) (addf : ρ → μ → μ)
    (base : μ) : ∀ (rows : List ρ) (acc : List (κ × μ)),
    (rows.foldl (groupUpd keyf addf base) acc).map Prod.fst =
      acc.map Prod.fst ++ firstKeysAux (acc.map Prod.fst) (rows.map keyf)
  | [], acc => by simp [firstKeysAux]
  | r :: t, acc => by
    simp only [List.foldl_cons, List.map_cons, firstKeysAux]
    rw [map_fst_foldl_groupUpd keyf addf base t (groupUpd keyf addf base acc r),
      map_fst_groupUpd]
    by_cases h : keyf r ∈ acc.map Prod.fst
    · rw [if_pos h, if_pos h]
    · rw [if_neg h, if_neg h]
      have hcongr : ∀ x, x ∈ acc.map Prod.fst ++ [keyf r] ↔ x ∈ keyf r :: acc.map Prod.fst := by
        intro x; simp [or_comm]
      rw [firstKeysAux_congr hcongr, List.append_assoc]
      rfl

/-- The keys of the source's insertion-ordered grouping are exactly the row
keys in order of first appearance. -/
theorem map_fst_groupByKey {κ ρ μ : Type} [DecidableEq κ] (keyf : ρ → κ) (addf : ρ → μ → μ)
    (base : μ) (rows : List ρ) :
    (groupByKey keyf addf base rows).map Prod.fst = firstKeys (rows.map keyf) := by
  unfold groupByKey firstKeys
  rw [map_fst_foldl_groupUpd]
  rfl

theorem firstKeysAux_nodup {κ : Type} [DecidableEq κ] :
    ∀ (l seen : List κ), (firstKeysAux seen l).Nodup ∧ ∀ x ∈ firstKeysAux seen l, x ∉ seen
  | [], _ => by simp [firstKeysAux]
  | k :: t, seen => by
    simp only [firstKeysAux]
    by_cases hk : k ∈ seen
    · rw [if_pos hk]; exact firstKeysAux_nodup t seen
    · rw [if_neg hk]
      obtain ⟨hnd, hni⟩ := firstKeysAux_nodup t (k :: seen)
      refine ⟨List.nodup_cons.mpr ⟨fun hc => (hni k hc) (List.mem_cons_self k seen), hnd⟩, ?_⟩
      intro x hx
      rcases List.mem_cons.mp hx with h | h
      · exact h ▸ hk
      · exact fun hs => hni x h (List.mem_cons_of_mem k hs)

theorem firstKeys_nodup {κ : Type} [DecidableEq κ] (l : List κ) : (firstKeys l).Nodup :=
  (firstKeysAux_nodup l []).1

theorem firstKeysAux_subset {κ : Type} [DecidableEq κ] :
    ∀ (l seen : List κ) (x : κ), x ∈ firstKeysAux seen l → x ∈ l
  | [], _, _ => by simp [firstKeysAux]
  | k :: t, seen, x => by
    simp only [firstKeysAux]
    by_cases hk : k ∈ seen
    · rw [if_pos hk]
      exact fun h => List.mem_cons_of_mem k (firstKeysAux_subset t seen x h)
    · rw [if_neg hk]
      intro h
      rcases List.mem_cons.mp h with h | h
      · exact h ▸ List.mem_cons_self k t
      · exact List.mem_cons_of_mem k (firstKeysAux_subset t (k :: seen) x h)

theorem firstKeys_subset {κ : Type} [DecidableEq κ] (l : List κ) (x : κ) :
    x ∈ firstKeys l → x ∈ l :=
  firstKeysAux_subset l [] x

/-! ## The per-day series fetch `fetchBarChartData` (lines 1160-1350)

A summary row is reduced to its (already day-normalized) date and the metric
cell's native value; `none` models a non-numeric cell (`null`).  Days are day
numbers (days since the epoch), matching the source's normalization of every
date to midnight UTC before grouping (`setUTCHours(0,0,0,0)` /
`toISOString().slice(0,10)`).  The ungrouped case (`detailKey = ''`) is
modelled; the detail-key row filter only restricts the row list. -/

/-- A raw summary row for the series fetch. -/
structure SRow where
  day : Int
  value : Option Int
deriving DecidableEq, Repr

/-- A JavaScript numeric bucket value: a number, or `null` (the bulk path's
grouping can store `null` into a bucket via its non-number branch). -/
inductive JSNum
  | num (n : Int)
  | null
deriving DecidableEq, Repr

/-- One accumulation step of the bulk path's bucket update (lines 1315-1321):
a numeric cell is added (JavaScript coerces a `null` bucket to 0), a `null`
cell overwrites a bucket that still holds `0`. -/
def jsAccum (r : SRow) (b : JSNum) : JSNum :=
  match r.value with
  | some v =>
    match b with
    | .num a => .num (a + v)
    | .null => .num v
  | none => if b = JSNum.num 0 then JSNum.null else b

/-- A chart series point (`{date, value}`). -/
structure SPoint where
  date : Int
  value : JSNum
deriving DecidableEq, Repr

/-- Comparison used by the bulk path's final `sort((a, b) => a.date - b.date)`. -/
def pointLE (p q : SPoint) : Prop := p.date ≤ q.date

instance : DecidableRel pointLE :=
  fun p q => inferInstanceAs (Decidable (p.date ≤ q.date))

instance : IsTotal SPoint pointLE :=
  ⟨fun p q => Int.le_total p.date q.date⟩

instance : IsTrans SPoint pointLE :=
  ⟨fun _ _ _ h₁ h₂ => le_trans h₁ h₂⟩

/-- The bulk path's `Map`-based grouping of rows by calendar day (lines
1279-1341). -/
def bulkGrouped (rows : List SRow) : List (Int × JSNum) :=
  groupByKey SRow.day jsAccum (JSNum.num 0) rows

/-- The bulk strategy (lines 1278-1346): one fetch for the whole window,
grouped client-side by day, then sorted by date ascending.  Days of the
window with no matching rows produce no point. -/
def bulkPoints (rows : List SRow) : List SPoint :=
  List.insertionSort pointLE ((bulkGrouped rows).map (fun p => SPoint.mk p.1 p.2))

/-- The calendar days of the window `[s, e]`, in order (the fallback path's
`for (let d = startDate; d <= endDate; d.setDate(d.getDate() + 1))`). -/
def rangeDays (s e : Int) : List Int :=
  (List.range (e - s + 1).toNat).map (fun i : Nat => s + (i : Int))

/-- The fallback path's per-day accumulator (lines 1237-1238): the sum of the
numeric metric cells of the rows of day `d` (non-numeric cells skipped). -/
def dailySum (rows : List SRow) (d : Int) : Int :=
  rows.foldl
    (fun acc r =>
      if r.day = d then
        match r.value with
        | some v => acc + v
        | none => acc
      else acc)
    0

/-- The fallback (one-fetch-per-day) strategy (lines 1187-1269): one point per
calendar day of the window, value 0 when no row matches. -/
def perDayPoints (rows : List SRow) (s e : Int) : List SPoint :=
  (rangeDays s e).map (fun d => ⟨d, JSNum.num (dailySum rows d)⟩)

/-- `fetchBarChartData` (lines 1160-1350): the bulk strategy when the date and
metric columns are resolvable in the summary (`dateIndex !== -1 &&
metricIndex !== -1`), otherwise the per-day fallback. -/
def fetchBarChartData (columnsResolvable : Bool) (rows : List SRow) (s e : Int) : List SPoint :=
  if columnsResolvable then bulkPoints rows else perDayPoints rows s e

theorem pairwise_lt_of_le_nodup (l : List Int) (hle : l.Pairwise (· ≤ ·)) (hnd : l.Nodup) :
    l.Pairwise (· < ·) :=
  List.Sorted.lt_of_le hle hnd

theorem perDayPoints_map_date (rows : List SRow) (s e : Int) :
    (perDayPoints rows s e).map SPoint.date = rangeDays s e := by
  unfold perDayPoints
  rw [List.map_map]
  exact List.map_id _

theorem rangeDays_pairwise (s e : Int) : (rangeDays s e).Pairwise (· < ·) := by
  have h : ∀ n : Nat, ((List.range n).map (fun i : Nat => s + (i : Int))).Pairwise (· < ·) := by
    intro n
    induction n with
    | zero => simp
    | succ m ih =>
      rw [List.range_succ, List.map_append]
      refine List.pairwise_append.mpr ⟨ih, by simp, ?_⟩
      intro x hx y hy
      simp only [List.mem_map, List.mem_range] at hx
      simp only [List.map_cons, List.map_nil, List.mem_singleton] at hy
      obtain ⟨a, ha, rfl⟩ := hx
      subst hy
      omega
  exact h _

theorem dailySum_eq_zero (rows : List SRow) (d : Int) (h : ∀ r ∈ rows, r.day ≠ d) :
    dailySum rows d = 0 := by
  unfold dailySum
  induction rows with
  | nil => rfl
  | cons r t ih =>
    rw [List.foldl_cons, if_neg (h r (List.mem_cons_self r t))]
    exact ih (fun x hx => h x (List.mem_cons_of_mem r hx))

theorem bulkPoints_map_date_perm (rows : List SRow) :
    ((bulkPoints rows).map SPoint.date).Perm (firstKeys (rows.map SRow.day)) := by
  have h1 : ((bulkPoints rows).map SPoint.date).Perm
      (((bulkGrouped rows).map (fun p => SPoint.mk p.1 p.2)).map SPoint.date) :=
    (List.perm_insertionSort pointLE _).map SPoint.date
  have h2 : ((bulkGrouped rows).map (fun p => SPoint.mk p.1 p.2)).map SPoint.date
      = (bulkGrouped rows).map Prod.fst := by
    rw [List.map_map]; rfl
  rw [h2] at h1
  unfold bulkGrouped at h1
  rw [map_fst_groupByKey] at h1
  exact h1

theorem bulkPoints_dates_nodup (rows : List SRow) :
    ((bulkPoints rows).map SPoint.date).Nodup :=
  (bulkPoints_map_date_perm rows).nodup_iff.mpr (firstKeys_nodup _)

theorem bulkPoints_dates_sorted (rows : List SRow) :
    ((bulkPoints rows).map SPoint.date).Pairwise (· < ·) := by
  refine pairwise_lt_of_le_nodup _ ?_ (bulkPoints_dates_nodup rows)
  have hs : (bulkPoints rows).Pairwise pointLE :=
    List.sorted_insertionSort pointLE _
  exact List.pairwise_map.mpr hs

theorem bulkPoints_dates_subset (rows : List SRow) (d : Int) :
    d ∈ (bulkPoints rows).map SPoint.date → d ∈ rows.map SRow.day := by
  intro h
  exact firstKeys_subset _ d ((bulkPoints_map_date_perm rows).mem_iff.mp h)

/-! ## Worksheet filter-state traces for the fetch operations

Each fetch operation is abstracted to the sequence of worksheet calls it
performs that concern the date-range filter: `applyF` models
`applyRangeFilterAsync` (filter becomes active), `clearF` models
`clearFilterAsync` (filter becomes inactive), and `summaryF` models
`getSummaryDataAsync`, the host call that may throw.  An exception aborts the
remaining operations — exactly as the source's `try { ... } catch (e) { return
[]; }` / re-throw blocks do, none of which touches the filter in a `catch` or
`finally` — leaving the filter state as it was at the throw. -/

/-- A worksheet call relevant to the date-range filter state. -/
inductive FilterOp
  | applyF
  | clearF
  | summaryF
deriving DecidableEq, Repr

/-- Run a trace of filter operations.  `oks` is the oracle of outcomes of the
successive `getSummaryDataAsync` calls (`false` = the host throws, aborting
the trace with the filter state unchanged); an exhausted oracle means the
remaining calls succeed.  Returns whether a date-range filter is active when
the operation returns (initial state `st`). -/
def runOps : List FilterOp → List Bool → Bool → Bool
  | [], _, st => st
  | .applyF :: rest, oks, _ => runOps rest oks true
  | .clearF :: rest, oks, _ => runOps rest oks false
  | .summaryF :: rest, oks, st =>
    match oks with
    | [] => runOps rest [] st
    | ok :: oks' => if ok then runOps rest oks' st else st

/-- `[applyRangeFilterAsync, getSummaryDataAsync]` repeated `n` times (one
iteration per day or per period of a loop). -/
def repOps : Nat → List FilterOp
  | 0 => []
  | n + 1 => FilterOp.applyF :: FilterOp.summaryF :: repOps n

/-- The filter-relevant trace of `fetchBarChartData` (lines 1160-1350): apply
the range filter, fetch the summary; if the date/metric columns are
resolvable, group client-side and clear; otherwise clear, run the per-day
loop (`numDays` iterations of apply + fetch), and clear again. -/
def fetchBarChartOps (columnsResolvable : Bool) (numDays : Nat) : List FilterOp :=
  FilterOp.applyF :: FilterOp.summaryF ::
    (if columnsResolvable then [FilterOp.clearF]
     else FilterOp.clearF :: (repOps numDays ++ [FilterOp.clearF]))

/-- The filter-relevant trace of `fetchAggregatedChartData` (lines 989-1075):
one apply + fetch per generated period, then a single clear. -/
def fetchAggregatedOps (numPeriods : Nat) : List FilterOp :=
  repOps numPeriods ++ [FilterOp.clearF]

/-- The filter-relevant trace of the totals phase of `refreshKPIs` (lines
605-610): `fetchDataForRange` (apply + fetch) for current, prevMonth and
prevYear, then a single `clearFilterAsync`.  An exception in any fetch
re-throws to the `catch` of `refreshKPIs`, which performs no filter call. -/
def refreshTotalsOps : List FilterOp :=
  repOps 3 ++ [FilterOp.clearF]

theorem runOps_append_clear (ops : List FilterOp) (oks : List Bool) (st : Bool)
    (h : oks.all id = true) : runOps (ops ++ [FilterOp.clearF]) oks st = false := by
  induction ops generalizing oks st with
  | nil => rfl
  | cons op rest ih =>
    cases op with
    | applyF => exact ih oks true h
    | clearF => exact ih oks false h
    | summaryF =>
      cases oks with
      | nil => exact ih [] st rfl
      | cons ok oks' =>
        simp only [List.all_cons, Bool.and_eq_true, id] at h
        simp only [List.cons_append, runOps, h.1, if_true]
        exact ih oks' st (by simpa using h.2)

/-! ## The refresh re-entrancy trace (`refreshKPIs` / `loadChartsAsync`)

`refreshKPIs` (lines 376-706) drops a re-entrant call with `if
(state.isCalculating) return;`, sets the flag at entry (line 378), and resets
it in its `finally` block (line 696).  Its body launches `loadChartsAsync`
WITHOUT awaiting it (line 688), so in the cooperative (single-threaded,
suspend-at-await) execution model the `finally` block runs as soon as the
body's last await (`computeStateHash`, line 691) resolves, while the per-card
series fetches of `loadChartsAsync` are still pending.  `refreshTrace` is the
linearization of one refresh in which the state-hash computation resolves
before the series fetches finish (one fetch per card remains; shown here for
one card: reference fetch, reference render, current fetch, final render).
`isCalculatingAfter` folds the two assignments of the flag over a trace
prefix. -/

/-- The successive suspension-point events of one refresh. -/
inductive RefreshStep
  | setCalculatingTrue
  | setApplyingFilters
  | fetchTotalsCurrent
  | fetchTotalsPrevMonth
  | fetchTotalsPrevYear
  | clearDateFilter
  | buildCardList
  | renderSkeletons
  | launchLoadCharts
  | computeHash
  | finallyReset
  | seriesFetchReference
  | seriesRenderReference
  | seriesFetchCurrent
  | seriesRenderBoth
deriving DecidableEq, Repr

/-- The linearized event order of one refresh (series steps after the
`finally`, because `loadChartsAsync` is not awaited). -/
def refreshTrace : List RefreshStep :=
  [.setCalculatingTrue, .setApplyingFilters, .fetchTotalsCurrent, .fetchTotalsPrevMonth,
   .fetchTotalsPrevYear, .clearDateFilter, .buildCardList, .renderSkeletons,
   .launchLoadCharts, .computeHash, .finallyReset,
   .seriesFetchReference, .seriesRenderReference, .seriesFetchCurrent, .seriesRenderBoth]

/-- The value of `state.isCalculating` after a trace prefix (initially
`false`; set by `setCalculatingTrue`, cleared by `finallyReset`). -/
def isCalculatingAfter (steps : List RefreshStep) : Bool :=
  steps.foldl
    (fun b s =>
      match s with
      | .setCalculatingTrue => true
      | .finallyReset => false
      | _ => b)
    false

/-- Whether a second `refreshKPIs` call arriving after the first `k` events of
the refresh is dropped by the `isCalculating` guard (line 377). -/
def secondCallDropped (k : Nat) : Bool :=
  isCalculatingAfter (refreshTrace.take k)

/-! ## Detail grouping and card creation (`fetchDataForRange` lines 521-575,
`createCardData` / card loop lines 615-682)

A totals summary row carries the values of the configured detail fields and
the (single, for this model) metric's numeric value.  `fetchDataForRange`
groups rows by the concatenated detail key with a `Map`, preserving insertion
order; the ordered key list is captured from the `current` window only
(`state.orderedDetailKeys`, line 571-573) and reused for every window when
cards are created. -/

/-- A totals summary row: its detail-field cell values (formatted), and the
metric cell's numeric value. -/
structure DRow where
  detailVals : List String
  metricVal : Int
deriving DecidableEq, Repr

/-- The row's detail key: the detail-field values joined with `' | '`
(line 537). -/
def rowKey (r : DRow) : String :=
  String.intercalate " | " r.detailVals

/-- Accumulate a row's metric value into its group's running sum
(lines 550-561, numeric branch). -/
def dAccum (r : DRow) (m : Int) : Int :=
  m + r.metricVal

/-- The grouped totals of one window's rows (insertion-ordered). -/
def groupTotals (rows : List DRow) : List (String × Int) :=
  groupByKey rowKey dAccum 0 rows

/-- `state.orderedDetailKeys`: the detail keys of the current window's rows in
insertion order of the grouping `Map` (lines 571-573). -/
def orderedDetailKeys (rows : List DRow) : List String :=
  (groupTotals rows).map Prod.fst

/-- A KPI card as far as identity and totals are concerned. -/
structure KCard where
  baseName : String
  chartType : String
  detailKey : String
  current : Int
  prevMonthVal : Int
  prevYearVal : Int
deriving DecidableEq, Repr

/-- `createCardData(mName, chartType, detailKey)` (lines 621-661): totals are
looked up per window by detail key, defaulting to 0
(`results[label]?.[detailKey]?.[mName]?.val || 0`). -/
def createCardData (curG pmG pyG : List (String × Int)) (mName mType k : String) : KCard :=
  ⟨mName, mType, k, ((curG.lookup k).getD 0), ((pmG.lookup k).getD 0), ((pyG.lookup k).getD 0)⟩

/-- The card-creation loop (lines 663-669): for each encoded metric in
declaration order, one card per captured detail key, in the captured
(current-window) order. -/
def buildCards (metrics : List (String × String)) (curRows pmRows pyRows : List DRow) :
    List KCard :=
  let curG := groupTotals curRows
  let pmG := groupTotals pmRows
  let pyG := groupTotals pyRows
  metrics.flatMap (fun m => (curG.map Prod.fst).map (fun k => createCardData curG pmG pyG m.1 m.2 k))

/-! ## The change-detection fingerprint `computeStateHash` (lines 300-374) -/

/-- One visual-specification encoding entry (`{id, field}`); `fieldName` models
`e.field?.name || e.field || e.fieldName`. -/
structure VEncoding where
  id : String
  fieldName : String
deriving DecidableEq, Repr

/-- One active filter as read from `getFiltersAsync`: its field name, filter
type, optional `minValue`/`maxValue` bounds and optional `appliedValues`
(value strings). -/
structure WFilter where
  fieldName : String
  filterType : String
  rangeBounds : Option (String × String)
  appliedValues : Option (List String)
deriving DecidableEq, Repr

/-- JavaScript's default `Array.prototype.sort()` on strings: sort by the
string order. -/
def sortStrings (l : List String) : List String :=
  List.insertionSort (· ≤ ·) l

theorem sortStrings_perm {l₁ l₂ : List String} (h : l₁.Perm l₂) :
    sortStrings l₁ = sortStrings l₂ := by
  refine List.eq_of_perm_of_sorted ?_ (List.sorted_insertionSort _ _) (List.sorted_insertionSort _ _)
  exact (List.perm_insertionSort _ l₁).trans (h.trans (List.perm_insertionSort _ l₂).symm)

/-- The `metrics:` hash part (lines 310-313): bars/lines encodings in
declaration order, rendered `name(id)` and joined with `,` — NOT sorted. -/
def metricsPart (es : List VEncoding) : String :=
  String.intercalate ","
    ((es.filter (fun e => e.id == "bars" || e.id == "lines")).map
      (fun e => e.fieldName ++ "(" ++ e.id ++ ")"))

/-- A sorted role part (lines 315-338): the field names of the encodings of
one role, non-empty, sorted. -/
def rolePart (role : String) (es : List VEncoding) : List String :=
  sortStrings (((es.filter (fun e => e.id == role)).map VEncoding.fieldName).filter
    (fun n => n != ""))

/-- The per-filter descriptor string (lines 350-360). -/
def filterDescriptor (f : WFilter) : String :=
  let base := f.fieldName ++ ":" ++ f.filterType
  if f.filterType == "range" && f.rangeBounds.isSome then
    base ++ ":" ++ (f.rangeBounds.getD ("", "")).1 ++ "-" ++ (f.rangeBounds.getD ("", "")).2
  else
    match f.appliedValues with
    | some vs => base ++ ":" ++ String.intercalate "," (sortStrings vs)
    | none => base

/-- `computeStateHash(worksheet)` (lines 300-374): the `::`-joined hash parts
built from the encodings, the sorted filter descriptors, and the selected
period. -/
def computeStateHash (es : List VEncoding) (fs : List WFilter) (period : String) : String :=
  String.intercalate "::"
    ["metrics:" ++ metricsPart es,
     "unfavorable:" ++ String.intercalate "," (rolePart "unfavorable" es),
     "tooltip:" ++ String.intercalate "," (rolePart "tooltip" es),
     "detail:" ++ String.intercalate "," (rolePart "detail" es),
     "dates:" ++ String.intercalate "," (rolePart "date" es),
     "filters:" ++ String.intercalate "|" (sortStrings (fs.map filterDescriptor)),
     "period:" ++ period]

/-! ## Trend classes, tooltip color classes, fill colors and percent deltas -/

/-- `getTrendClass` (lines 739-745): trend CSS class of a delta, inverted for
unfavorable metrics. -/
def getTrendClass (isUnfavorable : Bool) (val : ℚ) : String :=
  if isUnfavorable then
    if val ≥ 0 then "trend-down" else "trend-up"
  else
    if val ≥ 0 then "trend-up" else "trend-down"

/-- The KPI card's delta triangle (lines 768, 779). -/
def kpiTriangle (diff : ℚ) : String :=
  if diff ≥ 0 then "▲" else "▼"

/-- `getColorClass` of `generateTooltipContent` (lines 2080-2085): the summary
tooltip's delta color class. -/
def summaryTooltipColorClass (isUnfavorable : Bool) (diff : ℚ) : String :=
  if isUnfavorable then
    if diff ≥ 0 then "negative" else "positive"
  else
    if diff ≥ 0 then "positive" else "negative"

/-- The point tooltip's delta color class, `generateBarTooltipContent` lines
2137-2147 (`diff = currentVal - refVal`). -/
def pointTooltipColorClass (currentVal refVal : ℚ) (isUnfavorable : Bool) : String :=
  let diff := currentVal - refVal
  if isUnfavorable then
    if diff ≥ 0 then "negative" else "positive"
  else
    if diff ≥ 0 then "positive" else "negative"

/-- The point tooltip's delta triangle (line 2142). -/
def pointTooltipTriangle (currentVal refVal : ℚ) : String :=
  if currentVal - refVal ≥ 0 then "▲" else "▼"

/-- The brush aggregated tooltip's delta color class, `updateAggregatedTooltip`
lines 1904-1908 (`diff = sumCurrent - sumRef`). -/
def aggTooltipColorClass (isUnfavorable : Bool) (diff : ℚ) : String :=
  if isUnfavorable then
    if diff ≥ 0 then "negative" else "positive"
  else
    if diff ≥ 0 then "positive" else "negative"

/-- The brush aggregated tooltip's delta triangle (line 1904). -/
def aggTooltipTriangle (diff : ℚ) : String :=
  if diff ≥ 0 then "▲" else "▼"

/-- The current bar's fill color (`renderBarChart` lines 1440-1445): growth =
strictly above the index-aligned reference value; good = growth, inverted for
unfavorable metrics; good renders indigo `#4f46e5`, bad renders red
`#ef4444`. -/
def barFillColor (value refVal : ℚ) (isUnfavorable : Bool) : String :=
  let isGrowth := value > refVal
  let isGood := if isUnfavorable then !isGrowth else isGrowth
  if isGood then "#4f46e5" else "#ef4444"

/-- The card delta percent (`renderKPIs` lines 728-732): JavaScript truthiness
guard — a zero reference total yields 0 instead of a division. -/
def renderKPIsPct (current ref : ℚ) : ℚ :=
  if ref ≠ 0 then (current - ref) / ref * 100 else 0

/-- The summary tooltip delta percent (`generateTooltipContent` lines
2065-2068), same truthiness guard. -/
def summaryTooltipPct (current ref : ℚ) : ℚ :=
  if ref ≠ 0 then (current - ref) / ref * 100 else 0

/-- The point tooltip delta percent (`generateBarTooltipContent` lines
2138-2139), same truthiness guard. -/
def pointTooltipPct (currentVal refVal : ℚ) : ℚ :=
  if refVal ≠ 0 then (currentVal - refVal) / refVal * 100 else 0

/-- `d3.sum` of the brushed current values (line 1890). -/
def brushSumCurrent (selected : List ℚ) : ℚ :=
  selected.foldl (· + ·) 0

/-- `d3.sum` of the reference values at the brushed indices (line 1891),
missing indices contributing 0. -/
def brushSumRef (indices : List Nat) (refData : List ℚ) : ℚ :=
  indices.foldl (fun a i => a + refData.getD i 0) 0

/-- The brush aggregated tooltip percent (`updateAggregatedTooltip` lines
1893-1894), with the truthiness guard on the reference sum. -/
def brushAggPct (selected : List ℚ) (indices : List Nat) (refData : List ℚ) : ℚ :=
  let sumRef := brushSumRef indices refData
  if sumRef ≠ 0 then (brushSumCurrent selected - sumRef) / sumRef * 100 else 0

/-! ## Claim theorems -/

/-- C1 (counterexample): the claim asserts that `fetchBarChartData` returns
one series point for every calendar day of the window under BOTH strategies.
On the 10-day window `[0, 9]` with rows on only days 2, 3 and 4 (7 days with
no matching rows), the bulk fetch-then-group-by-date strategy returns only 3
points, not 10: the grouping produces points only for days that have at least
one row and never pads missing days with zeros. -/
theorem C1_bulk_gap_counterexample :
    (fetchBarChartData true [⟨2, some 1⟩, ⟨3, some 1⟩, ⟨4, some 1⟩] 0 9).length = 3 ∧
    (rangeDays 0 9).length = 10 ∧
    (fetchBarChartData true [⟨2, some 1⟩, ⟨3, some 1⟩, ⟨4, some 1⟩] 0 9).length ≠
      (rangeDays 0 9).length := by
  decide

/-- C1 (amended): only the one-fetch-per-day fallback strategy of
`fetchBarChartData` returns one point for every calendar day of the window —
in ascending order, each day distinct, with value 0 for days with no matching
rows (so a 10-day window yields exactly 10 points).  The bulk
fetch-then-group-by-date strategy returns the points in ascending order with
distinct days, but only for days having at least one matching row, so days
with zero matching rows are absent from its output. -/
theorem C1_series_day_coverage :
    (∀ (rows : List SRow) (s e : Int),
      (perDayPoints rows s e).map SPoint.date = rangeDays s e) ∧
    (∀ (rows : List SRow) (s e : Int),
      (perDayPoints rows s e).length = (e - s + 1).toNat) ∧
    (∀ s e : Int, (rangeDays s e).Pairwise (· < ·)) ∧
    (∀ (rows : List SRow) (s e : Int), ∀ p ∈ perDayPoints rows s e,
      (∀ r ∈ rows, r.day ≠ p.date) → p.value = JSNum.num 0) ∧
    (∀ rows : List SRow, ((bulkPoints rows).map SPoint.date).Pairwise (· < ·)) ∧
    (∀ (rows : List SRow) (d : Int),
      d ∈ (bulkPoints rows).map SPoint.date → d ∈ rows.map SRow.day) := by
  refine ⟨perDayPoints_map_date, ?_, rangeDays_pairwise, ?_, bulkPoints_dates_sorted,
    bulkPoints_dates_subset⟩
  · intro rows s e
    simp [perDayPoints, rangeDays]
  · intro rows s e p hp hno
    unfold perDayPoints at hp
    obtain ⟨d, _, rfl⟩ := List.mem_map.mp hp
    exact congrArg JSNum.num (dailySum_eq_zero rows d (fun r hr => hno r hr))

theorem C1_series_day_coverage_witness :
    (perDayPoints [⟨2, some 5⟩] 0 3).map SPoint.date = rangeDays 0 3 ∧
    (SPoint.mk 0 (JSNum.num 0)).value = JSNum.num 0 :=
  ⟨C1_series_day_coverage.1 [⟨2, some 5⟩] 0 3,
   C1_series_day_coverage.2.2.2.1 [⟨2, some 5⟩] 0 3 ⟨0, JSNum.num 0⟩ (by decide) (by decide)⟩

/-- C2 (counterexample): the claim asserts the date-range filter is cleared
after every series fetch and after the totals phase regardless of success or
failure.  In each of the three operations, a `getSummaryDataAsync` call that
throws reaches a `catch` (or re-throws to `refreshKPIs`'s `catch`) that
performs no `clearFilterAsync`, so the filter applied by the operation
remains active: shown for the bulk path of `fetchBarChartData`, its per-day
fallback (failure on the third day), `fetchAggregatedChartData` (failure in
the first period) and the totals phase of `refreshKPIs` (failure on the
second window). -/
theorem C2_filter_cleanup_counterexample :
    runOps (fetchBarChartOps true 0) [false] false = true ∧
    runOps (fetchBarChartOps false 3) [true, true, false] false = true ∧
    runOps (fetchAggregatedOps 2) [false] false = true ∧
    runOps refreshTotalsOps [true, false] false = true := by
  decide

/-- C2 (amended): when every host data call succeeds, `fetchBarChartData`
(either strategy), `fetchAggregatedChartData` and the totals phase of
`refreshKPIs` all finish with the date-range filter cleared; when a host data
call throws, the operation returns through a catch path that does not clear
the filter, leaving it active (see the counterexample). -/
theorem C2_filter_cleanup_amended (resolvable : Bool) (numDays numPeriods : Nat)
    (oks : List Bool) (h : oks.all id = true) :
    runOps (fetchBarChartOps resolvable numDays) oks false = false ∧
    runOps (fetchAggregatedOps numPeriods) oks false = false ∧
    runOps refreshTotalsOps oks false = false := by
  refine ⟨?_, runOps_append_clear _ _ _ h, runOps_append_clear _ _ _ h⟩
  cases resolvable with
  | true =>
    have hops : fetchBarChartOps true numDays =
        [FilterOp.applyF, FilterOp.summaryF] ++ [FilterOp.clearF] := rfl
    rw [hops]
    exact runOps_append_clear _ _ _ h
  | false =>
    have hops : fetchBarChartOps false numDays =
        (FilterOp.applyF :: FilterOp.summaryF :: FilterOp.clearF :: repOps numDays) ++
          [FilterOp.clearF] := by
      simp [fetchBarChartOps]
    rw [hops]
    exact runOps_append_clear _ _ _ h

theorem C2_filter_cleanup_amended_witness :
    runOps (fetchBarChartOps true 2) [true, true] false = false ∧
    runOps (fetchAggregatedOps 2) [true, true] false = false ∧
    runOps refreshTotalsOps [true, true] false = false :=
  C2_filter_cleanup_amended true 2 2 [true, true] (by decide)

/-- C3 (counterexample): the claim asserts that applying `getPrevMonthRange`
twice to a window whose start is Jan 31 yields a start of Nov 30.  It does
not: `setUTCMonth` keeps the day-of-month and ECMAScript date normalization
rolls the out-of-range Nov 31 FORWARD, so the second application maps
Dec 31, 2023 to Dec 1, 2023 (month index 11, day 1) — not Nov 30
(month index 10, day 30). -/
theorem C3_prev_month_counterexample :
    (getPrevMonthRange (getPrevMonthRange
        ⟨⟨2024, 0, 31, 0, 0, 0, 0⟩, ⟨2024, 0, 31, 23, 59, 59, 999⟩⟩)).start
      = ⟨2023, 11, 1, 0, 0, 0, 0⟩ ∧
    (getPrevMonthRange (getPrevMonthRange
        ⟨⟨2024, 0, 31, 0, 0, 0, 0⟩, ⟨2024, 0, 31, 23, 59, 59, 999⟩⟩)).start
      ≠ ⟨2023, 10, 30, 0, 0, 0, 0⟩ := by
  decide

/-- C3 (amended): `getPrevMonthRange` subtracts exactly one from the month
field of `start` and `end` independently (not a day-count shift); when the
kept day-of-month overflows the shorter target month, JavaScript `Date`
normalization carries it forward into the next month.  Applying it twice to
a window whose start is Jan 31, 2024 yields Dec 31, 2023 after the first
application and Dec 1, 2023 (not Nov 30) after the second; when the
day-of-month fits (e.g. Mar 15), the result is a plain one-month shift. -/
theorem C3_prev_month_amended :
    (getPrevMonthRange
        ⟨⟨2024, 0, 31, 0, 0, 0, 0⟩, ⟨2024, 0, 31, 23, 59, 59, 999⟩⟩).start
      = ⟨2023, 11, 31, 0, 0, 0, 0⟩ ∧
    (getPrevMonthRange (getPrevMonthRange
        ⟨⟨2024, 0, 31, 0, 0, 0, 0⟩, ⟨2024, 0, 31, 23, 59, 59, 999⟩⟩)).start
      = ⟨2023, 11, 1, 0, 0, 0, 0⟩ ∧
    getPrevMonthRange ⟨⟨2024, 2, 15, 0, 0, 0, 0⟩, ⟨2024, 2, 15, 23, 59, 59, 999⟩⟩
      = ⟨⟨2024, 1, 15, 0, 0, 0, 0⟩, ⟨2024, 1, 15, 23, 59, 59, 999⟩⟩ := by
  decide

/-- C4 (counterexample): the claim asserts a second `refreshKPIs` call is
dropped while the orchestrator is in any non-Idle state, up to completion of
`loadChartsAsync`.  But `loadChartsAsync` is launched without `await` (line
688) and the `finally` block resets `isCalculating` once the body's last
await resolves, so at trace position 11 — after the `finally`, with all four
per-card series events (positions 11-14) still pending, i.e. not Idle — a
second call is NOT dropped. -/
theorem C4_reentrancy_counterexample :
    secondCallDropped 11 = false ∧ 11 < refreshTrace.length := by
  decide

/-- C4 (amended): a second `refreshKPIs` call is dropped by the
`isCalculating` flag exactly while the first call's own body is executing —
from entry (position 1) through its `finally` block (position 10, after the
totals fetch, card construction, skeleton render, `loadChartsAsync` launch
and state-hash recompute).  Because `loadChartsAsync` is not awaited, the
per-card series loading (positions 11-14) runs after the flag is reset, and a
second call arriving then proceeds. -/
theorem C4_reentrancy_amended :
    ∀ k, k < refreshTrace.length + 1 → (secondCallDropped k = true ↔ 1 ≤ k ∧ k ≤ 10) := by
  decide

theorem C4_reentrancy_amended_witness : secondCallDropped 5 = true :=
  (C4_reentrancy_amended 5 (by decide)).mpr (by decide)

/-- C5: with a detail grouping configured, the distinct detail-group keys are
captured in order of first appearance in the current window's raw row order
(`orderedDetailKeys rows = firstKeys (rows.map rowKey)`, and the captured
list has no duplicates); card creation emits, for each encoded metric in
declaration order, one card per captured group in exactly that captured order
— the card identity list is the flat product of the metric list with the
captured key list, and it is unchanged by any reordering or replacement of
the prevMonth/prevYear windows' rows (the captured order comes from the
current window only).  Raw row order `["West", "East", "West"]` produces
exactly two cards per metric, `West` then `East` — not alphabetical. -/
theorem C5_detail_group_order :
    (∀ rows : List DRow, orderedDetailKeys rows = firstKeys (rows.map rowKey)) ∧
    (∀ rows : List DRow, (orderedDetailKeys rows).Nodup) ∧
    (∀ (metrics : List (String × String)) (cur pm py : List DRow),
      (buildCards metrics cur pm py).map (fun c => (c.baseName, c.chartType, c.detailKey)) =
        metrics.flatMap (fun m => (orderedDetailKeys cur).map (fun k => (m.1, m.2, k)))) ∧
    (∀ (metrics : List (String × String)) (cur pm py pm' py' : List DRow),
      (buildCards metrics cur pm py).map (fun c => (c.baseName, c.chartType, c.detailKey)) =
        (buildCards metrics cur pm' py').map (fun c => (c.baseName, c.chartType, c.detailKey))) ∧
    orderedDetailKeys [⟨["West"], 10⟩, ⟨["East"], 20⟩, ⟨["West"], 30⟩] = ["West", "East"] ∧
    (buildCards [("Revenue", "bar")]
        [⟨["West"], 10⟩, ⟨["East"], 20⟩, ⟨["West"], 30⟩] [] []).map KCard.detailKey
      = ["West", "East"] := by
  have h1 : ∀ rows : List DRow, orderedDetailKeys rows = firstKeys (rows.map rowKey) := by
    intro rows
    unfold orderedDetailKeys groupTotals
    exact map_fst_groupByKey rowKey dAccum 0 rows
  have h3 : ∀ (metrics : List (String × String)) (cur pm py : List DRow),
      (buildCards metrics cur pm py).map (fun c => (c.baseName, c.chartType, c.detailKey)) =
        metrics.flatMap (fun m => (orderedDetailKeys cur).map (fun k => (m.1, m.2, k))) := by
    intro metrics cur pm py
    unfold buildCards orderedDetailKeys groupTotals
    rw [List.map_flatMap]
    refine List.flatMap_congr ?_
    intro m _
    rw [List.map_map]
    rfl
  refine ⟨h1, ?_, h3, ?_, by decide, by decide⟩
  · intro rows
    rw [h1 rows]
    exact firstKeys_nodup _
  · intro metrics cur pm py pm' py'
    rw [h3 metrics cur pm py, h3 metrics cur pm' py']

/-- C6: for period `mtd` with anchor 2024-03-15 (month index 2), `getRange`
returns [2024-03-01T00:00:00.000Z, 2024-03-15T23:59:59.999Z];
`getPrevMonthRange` of that window returns
[2024-02-01T00:00:00.000Z, 2024-02-15T23:59:59.999Z]; and `getPrevYearRange`
of it returns [2023-03-01T00:00:00.000Z, 2023-03-15T23:59:59.999Z]. -/
theorem C6_mtd_window_scenario :
    getRange .mtd ⟨2024, 2, 15, 0, 0, 0, 0⟩ =
      ⟨⟨2024, 2, 1, 0, 0, 0, 0⟩, ⟨2024, 2, 15, 23, 59, 59, 999⟩⟩ ∧
    getPrevMonthRange (getRange .mtd ⟨2024, 2, 15, 0, 0, 0, 0⟩) =
      ⟨⟨2024, 1, 1, 0, 0, 0, 0⟩, ⟨2024, 1, 15, 23, 59, 59, 999⟩⟩ ∧
    getPrevYearRange (getRange .mtd ⟨2024, 2, 15, 0, 0, 0, 0⟩) =
      ⟨⟨2023, 2, 1, 0, 0, 0, 0⟩, ⟨2023, 2, 15, 23, 59, 59, 999⟩⟩ := by
  decide

/-- C7: for a delta of +5 the tooltip color/direction is the good/"positive"
class when `isUnfavorable` is false and the bad/"negative" class when it is
true, and for a delta of -5 the results flip; the same single inversion
applies in the point tooltip (`generateBarTooltipContent`), the summary
tooltip (`generateTooltipContent`) and the bar fill-color selection (good =
indigo `#4f46e5`, bad = red `#ef4444`) — applied exactly once, as the
concrete outcomes show. -/
theorem C7_unfavorable_inversion :
    pointTooltipColorClass 5 0 false = "positive" ∧
    pointTooltipColorClass 5 0 true = "negative" ∧
    pointTooltipColorClass 0 5 false = "negative" ∧
    pointTooltipColorClass 0 5 true = "positive" ∧
    summaryTooltipColorClass false 5 = "positive" ∧
    summaryTooltipColorClass true 5 = "negative" ∧
    summaryTooltipColorClass false (-5) = "negative" ∧
    summaryTooltipColorClass true (-5) = "positive" ∧
    barFillColor 5 0 false = "#4f46e5" ∧
    barFillColor 5 0 true = "#ef4444" ∧
    barFillColor 0 5 false = "#ef4444" ∧
    barFillColor 0 5 true = "#4f46e5" := by
  norm_num [pointTooltipColorClass, summaryTooltipColorClass, barFillColor]

/-- C8: `computeStateHash` is deterministic (it is a pure function of the
encodings, filters and period) and insensitive to the order in which the host
reports the entries of each sorted part: permuting the filters, or the
encodings of any sorted role (tooltip, unfavorable, detail, date), while
keeping the bars/lines encoding sequence, yields a byte-identical fingerprint
string. -/
theorem C8_fingerprint_stable (es es' : List VEncoding) (fs fs' : List WFilter)
    (period : String)
    (hm : es'.filter (fun e => e.id == "bars" || e.id == "lines") =
      es.filter (fun e => e.id == "bars" || e.id == "lines"))
    (hu : (es'.filter (fun e => e.id == "unfavorable")).Perm
      (es.filter (fun e => e.id == "unfavorable")))
    (ht : (es'.filter (fun e => e.id == "tooltip")).Perm
      (es.filter (fun e => e.id == "tooltip")))
    (hd : (es'.filter (fun e => e.id == "detail")).Perm
      (es.filter (fun e => e.id == "detail")))
    (hdt : (es'.filter (fun e => e.id == "date")).Perm
      (es.filter (fun e => e.id == "date")))
    (hf : fs'.Perm fs) :
    computeStateHash es' fs' period = computeStateHash es fs period := by
  have hrole : ∀ role : String,
      (es'.filter (fun e => e.id == role)).Perm (es.filter (fun e => e.id == role)) →
      rolePart role es' = rolePart role es := by
    intro role h
    unfold rolePart
    exact sortStrings_perm ((h.map VEncoding.fieldName).filter _)
  have hm' : metricsPart es' = metricsPart es := by
    unfold metricsPart
    rw [hm]
  unfold computeStateHash
  rw [hm', hrole "unfavorable" hu, hrole "tooltip" ht, hrole "detail" hd, hrole "date" hdt,
    sortStrings_perm (hf.map filterDescriptor)]

theorem C8_fingerprint_stable_witness :
    computeStateHash
        [⟨"bars", "Revenue"⟩, ⟨"tooltip", "B"⟩, ⟨"tooltip", "A"⟩]
        [⟨"Date", "range", some ("2024-01-01", "2024-03-15"), none⟩,
         ⟨"Region", "categorical", none, some ["W", "E"]⟩] "mtd"
      = computeStateHash
        [⟨"bars", "Revenue"⟩, ⟨"tooltip", "A"⟩, ⟨"tooltip", "B"⟩]
        [⟨"Region", "categorical", none, some ["W", "E"]⟩,
         ⟨"Date", "range", some ("2024-01-01", "2024-03-15"), none⟩] "mtd" :=
  C8_fingerprint_stable
    [⟨"bars", "Revenue"⟩, ⟨"tooltip", "A"⟩, ⟨"tooltip", "B"⟩]
    [⟨"bars", "Revenue"⟩, ⟨"tooltip", "B"⟩, ⟨"tooltip", "A"⟩]
    [⟨"Region", "categorical", none, some ["W", "E"]⟩,
     ⟨"Date", "range", some ("2024-01-01", "2024-03-15"), none⟩]
    [⟨"Date", "range", some ("2024-01-01", "2024-03-15"), none⟩,
     ⟨"Region", "categorical", none, some ["W", "E"]⟩] "mtd"
    (by decide) (by decide) (by decide) (by decide) (by decide) (by decide)

/-- C9: a delta of exactly zero takes the favorable branch everywhere the
code compares `diff >= 0`: with `isUnfavorable = false` a zero delta gets the
"positive"/up-trend class and the up triangle, and with `isUnfavorable =
true` it gets the "negative"/down-trend class — uniformly in the card trend
class (`getTrendClass`), the point tooltip (`generateBarTooltipContent`,
shown at equal current and reference values) and the brush aggregated
tooltip (`updateAggregatedTooltip`). -/
theorem C9_zero_delta_favorable :
    getTrendClass false 0 = "trend-up" ∧
    getTrendClass true 0 = "trend-down" ∧
    kpiTriangle 0 = "▲" ∧
    pointTooltipColorClass 3 3 false = "positive" ∧
    pointTooltipColorClass 3 3 true = "negative" ∧
    pointTooltipTriangle 3 3 = "▲" ∧
    aggTooltipColorClass false 0 = "positive" ∧
    aggTooltipColorClass true 0 = "negative" ∧
    aggTooltipTriangle 0 = "▲" := by
  norm_num [getTrendClass, kpiTriangle, pointTooltipColorClass, pointTooltipTriangle,
    aggTooltipColorClass, aggTooltipTriangle]

/-- C10: every percentage-delta computation guards its division by the
reference value with a JavaScript truthiness check, so a zero reference
(prior-month total, prior-year total, point reference value, or brush
reference sum) yields a percent of exactly 0 instead of a division by zero —
in the card deltas (`renderKPIs`), the summary tooltip
(`generateTooltipContent`), the point tooltip (`generateBarTooltipContent`)
and the brush aggregated tooltip (`updateAggregatedTooltip`). -/
theorem C10_zero_reference_guard :
    (∀ current : ℚ, renderKPIsPct current 0 = 0) ∧
    (∀ current : ℚ, summaryTooltipPct current 0 = 0) ∧
    (∀ currentVal : ℚ, pointTooltipPct currentVal 0 = 0) ∧
    (∀ (selected : List ℚ) (indices : List Nat) (refData : List ℚ),
      brushSumRef indices refData = 0 → brushAggPct selected indices refData = 0) := by
  refine ⟨fun c => by simp [renderKPIsPct], fun c => by simp [summaryTooltipPct],
    fun c => by simp [pointTooltipPct], fun sel idx refD h => ?_⟩
  simp [brushAggPct, h]

theorem C10_zero_reference_guard_witness :
    brushAggPct [1, 2] [0] [0] = 0 :=
  C10_zero_reference_guard.2.2.2 [1, 2] [0] [0] (by simp [brushSumRef])
